import Mathlib

/-!
Verification development for the MarketSnapshot report generator
(src/MarketSnapshot.py).

The embedding models the performance-calculation and tabular-aggregation
pipeline:

* an observation is a calendar date (modelled as a day number `ℤ`) together
  with a numeric value (modelled as `ℚ`; the Python floats are read in exact
  arithmetic);
* `calculate_yfinance_performance` / `calculate_fred_performance` are the two
  change calculators (percentage variant and raw-difference variant).  The
  Python functions read the global `TODAY`; here the reference date is the
  explicit parameter `asOf`.  The unused `ticker_symbol` parameter of the
  Python function is dropped;
* `get_top_bottom_performers` is the ranker, `get_heatmap_class` the heatmap
  scaler, and `build_equity_row(s)` / `build_fixed_income_row(s)` the two
  table-assembly loops of `generate_morning_report` that the claims cite.

`pandas.sort_index` / `sort_values` are modelled with `List.insertionSort`.
For `sort_index` the keys (dates) are unique in every fetched series, so any
comparison sort yields the same list; `insertionSort` is chosen for its
Mathlib lemmas.  For `sort_values` the source uses the pandas default
`kind='quicksort'`, whose order among rows with equal values is
implementation-defined; the embedding's `insertionSort` agrees with the
source except possibly on the relative order of tied rows (all properties
proved below about the ranker are invariant under that choice, see the
individual doc comments).
-/

namespace MarketSnapshot

/-- One observation of a series: a calendar date (day number) and the
value on that date (the `Close` column for yfinance data, the `value`
column for FRED data). -/
structure Obs where
  date : ℤ
  value : ℚ
deriving DecidableEq, Repr

/-- Date comparison used by `sort_index`. -/
def dateLE (a b : Obs) : Prop := a.date ≤ b.date

instance : DecidableRel dateLE := fun a b => inferInstanceAs (Decidable (a.date ≤ b.date))

instance : IsTotal Obs dateLE := ⟨fun a b => le_total a.date b.date⟩

instance : IsTrans Obs dateLE := ⟨fun _ _ _ h₁ h₂ => le_trans h₁ h₂⟩

/-- `df.sort_index()`: sort a series ascending by date. -/
def sortByDate (l : List Obs) : List Obs := List.insertionSort dateLE l

/-- `((current - prev) / prev) * 100` guarded by `if prev != 0`; when the
denominator is zero the field keeps its initial `"N/A"` value (`none`). -/
def pctChangeFrom (current prev : ℚ) : Option ℚ :=
  if prev ≠ 0 then some ((current - prev) / prev * 100) else none

/-- The most recent observation at or before `cutoff`:
`df[df.index <= cutoff].iloc[-1]` (for an ascending-sorted `s`), `none` when
the slice is empty. -/
def lookbackObs (s : List Obs) (cutoff : ℤ) : Option Obs :=
  (s.filter (fun o => decide (o.date ≤ cutoff))).getLast?

/-- Day change of the percentage variant: requires at least two rows,
compares the last row with the second-to-last row (`iloc[-2]`). -/
def dayChangePct (s : List Obs) (current : ℚ) : Option ℚ :=
  if 2 ≤ s.length then
    (s.dropLast.getLast?).bind (fun prev => pctChangeFrom current prev.value)
  else none

/-- Week/Month change of the percentage variant: percentage change against
the lookback observation, `none` when the slice is empty. -/
def lookbackChangePct (s : List Obs) (cutoff : ℤ) (current : ℚ) : Option ℚ :=
  (lookbackObs s cutoff).bind (fun o => pctChangeFrom current o.value)

/-- A `{"Day": …, "Week": …, "Month": …}` result; `none` models `"N/A"`. -/
structure Performance where
  day : Option ℚ
  week : Option ℚ
  month : Option ℚ
deriving DecidableEq, Repr

/-- `calculate_yfinance_performance` (percentage variant).  The Python
function returns the all-`"N/A"` record when the frame is empty, otherwise
sorts by date and fills the three fields; the two emptiness checks of the
source (before and after sorting) collapse into the `getLast? = none`
case. -/
def calculate_yfinance_performance (asOf : ℤ) (current_price_df : List Obs) : Performance :=
  match (sortByDate current_price_df).getLast? with
  | none => ⟨none, none, none⟩
  | some lastObs =>
      ⟨dayChangePct (sortByDate current_price_df) lastObs.value,
       lookbackChangePct (sortByDate current_price_df) (asOf - 7) lastObs.value,
       lookbackChangePct (sortByDate current_price_df) (asOf - 30) lastObs.value⟩

/-- Day change of the raw-difference variant: `current - iloc[-2]`, with no
zero guard and no scaling. -/
def dayChangeDiff (s : List Obs) (current : ℚ) : Option ℚ :=
  if 2 ≤ s.length then
    (s.dropLast.getLast?).map (fun prev => current - prev.value)
  else none

/-- Week/Month change of the raw-difference variant: plain level difference
against the lookback observation. -/
def lookbackChangeDiff (s : List Obs) (cutoff : ℤ) (current : ℚ) : Option ℚ :=
  (lookbackObs s cutoff).map (fun o => current - o.value)

/-- `calculate_fred_performance` (raw-difference variant). -/
def calculate_fred_performance (asOf : ℤ) (series_data : List Obs) : Performance :=
  match (sortByDate series_data).getLast? with
  | none => ⟨none, none, none⟩
  | some lastObs =>
      ⟨dayChangeDiff (sortByDate series_data) lastObs.value,
       lookbackChangeDiff (sortByDate series_data) (asOf - 7) lastObs.value,
       lookbackChangeDiff (sortByDate series_data) (asOf - 30) lastObs.value⟩

/-! ### Ranker: `get_top_bottom_performers` -/

/-- One table row restricted to the ranked column.  `rid` records the row's
identity (its position in the original table); `cell` is the entry of the
ranked column after `pd.to_numeric(…, errors='coerce')`: `none` models any
non-numeric entry (for example the string `"N/A"`, coerced to NaN and then
removed by `dropna`). -/
structure Row where
  rid : ℕ
  cell : Option ℚ
deriving DecidableEq, Repr

/-- The numeric sort key of an (eligible) row. -/
def rowKey (r : Row) : ℚ := r.cell.getD 0

/-- Descending comparison on rows used by
`sort_values(by=column, ascending=False)`. -/
def rowGE (a b : Row) : Prop := rowKey b ≤ rowKey a

/-- Ascending comparison on rows used by
`sort_values(by=column, ascending=True)`. -/
def rowLE (a b : Row) : Prop := rowKey a ≤ rowKey b

instance : DecidableRel rowGE := fun a b => inferInstanceAs (Decidable (rowKey b ≤ rowKey a))

instance : DecidableRel rowLE := fun a b => inferInstanceAs (Decidable (rowKey a ≤ rowKey b))

instance : IsTotal Row rowGE := ⟨fun a b => (le_total (rowKey b) (rowKey a)).imp id id⟩

instance : IsTrans Row rowGE := ⟨fun _ _ _ h₁ h₂ => le_trans h₂ h₁⟩

instance : IsTotal Row rowLE := ⟨fun a b => le_total (rowKey a) (rowKey b)⟩

instance : IsTrans Row rowLE := ⟨fun _ _ _ h₁ h₂ => le_trans h₁ h₂⟩

/-- Descending comparison on the column's values. -/
def valGE (a b : ℚ) : Prop := b ≤ a

/-- Ascending comparison on the column's values. -/
def valLE (a b : ℚ) : Prop := a ≤ b

instance : DecidableRel valGE := fun a b => inferInstanceAs (Decidable (b ≤ a))

instance : DecidableRel valLE := fun a b => inferInstanceAs (Decidable (a ≤ b))

instance : IsTotal ℚ valGE := ⟨fun a b => (le_total b a).imp id id⟩

instance : IsTrans ℚ valGE := ⟨fun _ _ _ h₁ h₂ => le_trans h₂ h₁⟩

instance : IsAntisymm ℚ valGE := ⟨fun _ _ h₁ h₂ => le_antisymm h₂ h₁⟩

instance : IsTotal ℚ valLE := ⟨fun a b => le_total a b⟩

instance : IsTrans ℚ valLE := ⟨fun _ _ _ h₁ h₂ => le_trans h₁ h₂⟩

instance : IsAntisymm ℚ valLE := ⟨fun _ _ h₁ h₂ => le_antisymm h₁ h₂⟩

/-- `df.sort_values(by=column, ascending=False)` on the eligible rows. -/
def sortRowsDesc (l : List Row) : List Row := List.insertionSort rowGE l

/-- `df.sort_values(by=column, ascending=True)`. -/
def sortRowsAsc (l : List Row) : List Row := List.insertionSort rowLE l

/-- Descending sort of a list of column values. -/
def sortValsDesc (l : List ℚ) : List ℚ := List.insertionSort valGE l

/-- Ascending sort of a list of column values. -/
def sortValsAsc (l : List ℚ) : List ℚ := List.insertionSort valLE l

/-- `get_top_bottom_performers(df, column, num_performers=5)`: coerce the
column to numeric, drop the non-numeric rows, sort descending; the first
component is `head(num_performers)`, the second is `tail(num_performers)`
re-sorted ascending.  (`tail(k)` of an `n`-row frame is `drop (n - k)`.) -/
def get_top_bottom_performers (df : List Row) (num_performers : ℕ) : List Row × List Row :=
  let df_sorted := sortRowsDesc (df.filter (fun r => r.cell.isSome))
  (df_sorted.take num_performers,
   sortRowsAsc (df_sorted.drop (df_sorted.length - num_performers)))

/-! ### Heatmap scaler: `get_heatmap_class` -/

/-- The five green background classes, lowest to highest intensity. -/
def green_classes : List String :=
  ["bg-green-100", "bg-green-200", "bg-green-300", "bg-green-400", "bg-green-500"]

/-- The five red background classes, lowest to highest intensity. -/
def red_classes : List String :=
  ["bg-red-100", "bg-red-200", "bg-red-300", "bg-red-400", "bg-red-500"]

/-- Exact value of the Python expression `int(scale ** 0.5 * 4)` for a
nonnegative rational `scale`, read in exact real arithmetic: `int` truncation
of a nonnegative number is the floor, and
`⌊4·√scale⌋ = ⌊√(16·scale)⌋ = Nat.sqrt ⌊16·scale⌋` (the characterisation is
proved in `sqrtIndex_char` below). -/
def sqrtIndex (scale : ℚ) : ℕ := Nat.sqrt (Int.toNat ⌊16 * scale⌋)

/-- The full cell class for green bucket index `i` (0-based): background
class plus the text class chosen by `if idx >= 3`. -/
def greenCell (i : ℕ) : String :=
  green_classes.getD i "" ++ " " ++ (if 3 ≤ i then "text-white" else "text-gray-800")

/-- The full cell class for red bucket index `i` (0-based). -/
def redCell (i : ℕ) : String :=
  red_classes.getD i "" ++ " " ++ (if 3 ≤ i then "text-white" else "text-gray-800")

/-- The source's scale for a positive value:
`1.0 if (max_col_val is None or max_col_val <= 0) else min(value / max_col_val, 1.0)`. -/
def code_scale_pos (v : ℚ) (max_col_val : Option ℚ) : ℚ :=
  match max_col_val with
  | none => 1
  | some m => if m ≤ 0 then 1 else min (v / m) 1

/-- The source's scale for a negative value:
`1.0 if (min_col_val is None or min_col_val >= 0) else min(abs(value) / abs(min_col_val), 1.0)`. -/
def code_scale_neg (v : ℚ) (min_col_val : Option ℚ) : ℚ :=
  match min_col_val with
  | none => 1
  | some m => if 0 ≤ m then 1 else min (|v| / |m|) 1

/-- `get_heatmap_class(value, min_col_val, max_col_val)`.  A non-numeric
cell is modelled as `none`.  The `max(0, min(int(…), 4))` clamp of the
source is rendered as `min … 4` on `ℕ` (the inner quantity is already
nonnegative). -/
def get_heatmap_class (value : Option ℚ) (min_col_val max_col_val : Option ℚ) : String :=
  match value with
  | none => "bg-gray-200 text-gray-800"
  | some v =>
    if v = 0 then "bg-gray-300 text-gray-800"
    else if 0 < v then greenCell (min (sqrtIndex (code_scale_pos v max_col_val)) 4)
    else redCell (min (sqrtIndex (code_scale_neg v min_col_val)) 4)

/-- Reference scale for a positive value, written from the spec's words:
"scale = `value / columnMax` clamped to [0,1] when `columnMax > 0`, else
scale = 1.0".  Used to compare `get_heatmap_class` with the spec's
reference bucket definition. -/
def spec_scale_pos (v : ℚ) (max_col_val : Option ℚ) : ℚ :=
  match max_col_val with
  | some m => if 0 < m then max 0 (min (v / m) 1) else 1
  | none => 1

/-- Reference scale for a negative value, from the spec's words:
"symmetric using `|value| / |columnMin|` clamped to [0,1] when
`columnMin < 0`, else scale = 1.0". -/
def spec_scale_neg (v : ℚ) (min_col_val : Option ℚ) : ℚ :=
  match min_col_val with
  | some m => if m < 0 then max 0 (min (|v| / |m|) 1) else 1
  | none => 1

/-! ### Aggregator: the table-assembly loops of `generate_morning_report` -/

/-- One row of an equity-style table (`us_equity_data_list` entries):
identity, current level, and the three change fields.  `none` models
`"N/A"`. -/
structure AssetRow where
  asset : String
  ticker : String
  current_level : Option ℚ
  day : Option ℚ
  week : Option ℚ
  month : Option ℚ
deriving DecidableEq, Repr

/-- Body of the per-asset equity loop: fetch, compute performance, build the
row.  The current level is the last `Close` of the fetched frame when it is
non-empty (`hist_data_df['Close'].iloc[-1]`), else `"N/A"`. -/
def build_equity_row (asOf : ℤ) (fetch : String → List Obs) (nt : String × String) : AssetRow :=
  let hist := fetch nt.2
  let perf := calculate_yfinance_performance asOf hist
  { asset := nt.1, ticker := nt.2,
    current_level := (hist.getLast?).map Obs.value,
    day := perf.day, week := perf.week, month := perf.month }

/-- The equity loop over the caller-ordered list of (name, ticker) pairs. -/
def build_equity_rows (asOf : ℤ) (tickers : List (String × String))
    (fetch : String → List Obs) : List AssetRow :=
  tickers.map (build_equity_row asOf fetch)

/-- One row of the fixed-income table. -/
structure FIRow where
  asset : String
  current_level : Option ℚ
  day : Option ℚ
  week : Option ℚ
  month : Option ℚ
deriving DecidableEq, Repr

/-- `name in FRED_FIXED_INCOME_SERIES` / dictionary access, modelled as an
association-list lookup. -/
def lookupName (m : List (String × String)) (name : String) : Option String :=
  (m.find? (fun p => p.1 = name)).map Prod.snd

/-- Body of the fixed-income loop: the fields start as `"N/A"`; a name bound
to a FRED series uses `get_fred_data` + `calculate_fred_performance`, a name
bound to a yfinance ticker uses the percentage calculator, and the fields
are only assigned when the fetched series is non-empty. -/
def build_fixed_income_row (asOf : ℤ) (fredMap yfMap : List (String × String))
    (fetchFred fetchYf : String → List Obs) (name : String) : FIRow :=
  match lookupName fredMap name with
  | some sid =>
      let s_hist := fetchFred sid
      if s_hist = [] then ⟨name, none, none, none, none⟩
      else
        let perf := calculate_fred_performance asOf s_hist
        ⟨name, (s_hist.getLast?).map Obs.value, perf.day, perf.week, perf.month⟩
  | none =>
      match lookupName yfMap name with
      | some tckr =>
          let h_df := fetchYf tckr
          if h_df = [] then ⟨name, none, none, none, none⟩
          else
            let perf := calculate_yfinance_performance asOf h_df
            ⟨name, (h_df.getLast?).map Obs.value, perf.day, perf.week, perf.month⟩
      | none => ⟨name, none, none, none, none⟩

/-- The fixed-income loop over `full_fixed_income_order`. -/
def build_fixed_income_rows (asOf : ℤ) (fredMap yfMap : List (String × String))
    (fetchFred fetchYf : String → List Obs) (order : List String) : List FIRow :=
  order.map (build_fixed_income_row asOf fredMap yfMap fetchFred fetchYf)

/-! ### Unfolding lemmas for the two calculators -/

lemma append_pair (rest : List Obs) (b a : Obs) :
    rest ++ [b, a] = (rest ++ [b]) ++ [a] := by
  simp

lemma calc_yf_of_last (asOf : ℤ) (df : List Obs) (a : Obs) (rest2 : List Obs)
    (hs : sortByDate df = rest2 ++ [a]) :
    calculate_yfinance_performance asOf df =
      ⟨dayChangePct (rest2 ++ [a]) a.value,
       lookbackChangePct (rest2 ++ [a]) (asOf - 7) a.value,
       lookbackChangePct (rest2 ++ [a]) (asOf - 30) a.value⟩ := by
  unfold calculate_yfinance_performance
  rw [hs, List.getLast?_concat]

lemma calc_yf_of_nil (asOf : ℤ) (df : List Obs) (hs : sortByDate df = []) :
    calculate_yfinance_performance asOf df = ⟨none, none, none⟩ := by
  unfold calculate_yfinance_performance
  rw [hs]
  rfl

lemma calc_fred_of_last (asOf : ℤ) (df : List Obs) (a : Obs) (rest2 : List Obs)
    (hs : sortByDate df = rest2 ++ [a]) :
    calculate_fred_performance asOf df =
      ⟨dayChangeDiff (rest2 ++ [a]) a.value,
       lookbackChangeDiff (rest2 ++ [a]) (asOf - 7) a.value,
       lookbackChangeDiff (rest2 ++ [a]) (asOf - 30) a.value⟩ := by
  unfold calculate_fred_performance
  rw [hs, List.getLast?_concat]

lemma calc_fred_of_nil (asOf : ℤ) (df : List Obs) (hs : sortByDate df = []) :
    calculate_fred_performance asOf df = ⟨none, none, none⟩ := by
  unfold calculate_fred_performance
  rw [hs]
  rfl

lemma dayChangePct_pair (rest : List Obs) (b a : Obs) (c : ℚ) :
    dayChangePct (rest ++ [b, a]) c = pctChangeFrom c b.value := by
  have h2 : 2 ≤ (rest ++ [b, a]).length := by
    simp [List.length_append]
  have hd : (rest ++ [b, a]).dropLast = rest ++ [b] := by
    rw [append_pair, List.dropLast_concat]
  unfold dayChangePct
  rw [if_pos h2, hd, List.getLast?_concat]
  rfl

lemma dayChangePct_short (s : List Obs) (c : ℚ) (h : s.length < 2) :
    dayChangePct s c = none := by
  unfold dayChangePct
  rw [if_neg (by omega)]

lemma dayChangeDiff_pair (rest : List Obs) (b a : Obs) (c : ℚ) :
    dayChangeDiff (rest ++ [b, a]) c = some (c - b.value) := by
  have h2 : 2 ≤ (rest ++ [b, a]).length := by
    simp [List.length_append]
  have hd : (rest ++ [b, a]).dropLast = rest ++ [b] := by
    rw [append_pair, List.dropLast_concat]
  unfold dayChangeDiff
  rw [if_pos h2, hd, List.getLast?_concat]
  rfl

lemma lookbackChangePct_of_filter_concat (s : List Obs) (cutoff : ℤ) (c : ℚ)
    (rest : List Obs) (o : Obs)
    (hf : s.filter (fun x => decide (x.date ≤ cutoff)) = rest ++ [o]) :
    lookbackChangePct s cutoff c = pctChangeFrom c o.value := by
  unfold lookbackChangePct lookbackObs
  rw [hf, List.getLast?_concat]
  rfl

lemma lookbackChangePct_of_filter_nil (s : List Obs) (cutoff : ℤ) (c : ℚ)
    (hf : s.filter (fun x => decide (x.date ≤ cutoff)) = []) :
    lookbackChangePct s cutoff c = none := by
  unfold lookbackChangePct lookbackObs
  rw [hf]
  rfl

lemma lookbackChangeDiff_of_filter_concat (s : List Obs) (cutoff : ℤ) (c : ℚ)
    (rest : List Obs) (o : Obs)
    (hf : s.filter (fun x => decide (x.date ≤ cutoff)) = rest ++ [o]) :
    lookbackChangeDiff s cutoff c = some (c - o.value) := by
  unfold lookbackChangeDiff lookbackObs
  rw [hf, List.getLast?_concat]
  rfl

lemma lookbackChangeDiff_of_filter_nil (s : List Obs) (cutoff : ℤ) (c : ℚ)
    (hf : s.filter (fun x => decide (x.date ≤ cutoff)) = []) :
    lookbackChangeDiff s cutoff c = none := by
  unfold lookbackChangeDiff lookbackObs
  rw [hf]
  rfl

/-- A non-empty filtered slice forces the sorted series itself to be
non-empty, giving its last-element decomposition. -/
lemma exists_concat_of_filter_concat (s : List Obs) (p : Obs → Bool)
    (rest : List Obs) (o : Obs) (hf : s.filter p = rest ++ [o]) :
    ∃ rest2 a, s = rest2 ++ [a] := by
  rcases List.eq_nil_or_concat' s with h | ⟨L, b, h⟩
  · subst h
    simp at hf
  · exact ⟨L, b, h⟩

/-- All elements of an ascending-sorted series dated at or before the last
element's date: if the last date is at or before the cutoff, the `<= cutoff`
slice is the whole series. -/
lemma filter_cutoff_eq_self (rest : List Obs) (a : Obs) (cutoff : ℤ)
    (hsorted : List.Sorted dateLE (rest ++ [a])) (ha : a.date ≤ cutoff) :
    (rest ++ [a]).filter (fun x => decide (x.date ≤ cutoff)) = rest ++ [a] := by
  rw [List.filter_eq_self]
  intro x hx
  rcases List.mem_append.mp hx with hx | hx
  · have hxa : dateLE x a :=
      (List.pairwise_append.mp hsorted).2.2 x hx a (List.mem_singleton_self a)
    exact decide_eq_true (le_trans hxa ha)
  · have : x = a := List.mem_singleton.mp hx
    subst this
    exact decide_eq_true ha

/-! ### Claims C1, C2, C7, C9: the two change calculators -/

/-- C1: after sorting ascending by date, a series with at least two
observations has percentage Day change
`((latest - second_latest) / second_latest) * 100`, computed from exactly the
two most recent observations (their dates are unconstrained, so the calendar
gap between them is irrelevant); with fewer than two observations the Day
field is `"N/A"`.  The non-zero hypothesis on the denominator is the
source's zero guard; the zero case is claim C7. -/
theorem C1_day_change (asOf : ℤ) (df : List Obs) :
    (∀ (a b : Obs) (rest : List Obs), sortByDate df = rest ++ [b, a] → b.value ≠ 0 →
        (calculate_yfinance_performance asOf df).day =
          some ((a.value - b.value) / b.value * 100)) ∧
    ((sortByDate df).length < 2 →
        (calculate_yfinance_performance asOf df).day = none) := by
  constructor
  · intro a b rest hs hb
    have hs' : sortByDate df = (rest ++ [b]) ++ [a] := by rw [hs, append_pair]
    rw [calc_yf_of_last asOf df a (rest ++ [b]) hs']
    show dayChangePct ((rest ++ [b]) ++ [a]) a.value = _
    rw [← append_pair, dayChangePct_pair]
    unfold pctChangeFrom
    rw [if_pos hb]
  · intro hlen
    rcases List.eq_nil_or_concat' (sortByDate df) with h | ⟨L, c, h⟩
    · rw [calc_yf_of_nil asOf df h]
    · rw [calc_yf_of_last asOf df c L h]
      show dayChangePct (L ++ [c]) c.value = none
      apply dayChangePct_short
      rw [← h]
      exact hlen

/-- Witness for C1 at the spec's worked example: series
`[(0, 100), (1, 102), (2, 99)]`, asOf 2 — Day = `(99 - 102) / 102 * 100`. -/
theorem C1_day_change_witness :
    (calculate_yfinance_performance 2 [⟨0, 100⟩, ⟨1, 102⟩, ⟨2, 99⟩]).day =
      some ((99 - 102) / 102 * 100) :=
  (C1_day_change 2 [⟨0, 100⟩, ⟨1, 102⟩, ⟨2, 99⟩]).1 ⟨2, 99⟩ ⟨1, 102⟩ [⟨0, 100⟩]
    (by decide) (by norm_num)

/-- C2: for both variants, the Week (resp. Month) change is computed against
the most recent observation dated `≤ asOf - 7` (resp. `asOf - 30`): the last
element of the `<= cutoff` slice of the sorted series.  When that slice is
empty the corresponding field alone is `"N/A"` (`none`), with no exception
(the functions are total).  For the percentage variant the reference value
must also be non-zero (the zero case is claim C7). -/
theorem C2_week_month_lookback (asOf : ℤ) (df : List Obs) :
    ((sortByDate df).filter (fun x => decide (x.date ≤ asOf - 7)) = [] →
        (calculate_yfinance_performance asOf df).week = none) ∧
    (∀ (o a : Obs) (rest rest2 : List Obs), sortByDate df = rest2 ++ [a] →
        (sortByDate df).filter (fun x => decide (x.date ≤ asOf - 7)) = rest ++ [o] →
        o.value ≠ 0 →
        (calculate_yfinance_performance asOf df).week =
          some ((a.value - o.value) / o.value * 100)) ∧
    ((sortByDate df).filter (fun x => decide (x.date ≤ asOf - 30)) = [] →
        (calculate_yfinance_performance asOf df).month = none) ∧
    (∀ (o a : Obs) (rest rest2 : List Obs), sortByDate df = rest2 ++ [a] →
        (sortByDate df).filter (fun x => decide (x.date ≤ asOf - 30)) = rest ++ [o] →
        o.value ≠ 0 →
        (calculate_yfinance_performance asOf df).month =
          some ((a.value - o.value) / o.value * 100)) ∧
    ((sortByDate df).filter (fun x => decide (x.date ≤ asOf - 7)) = [] →
        (calculate_fred_performance asOf df).week = none) ∧
    (∀ (o a : Obs) (rest rest2 : List Obs), sortByDate df = rest2 ++ [a] →
        (sortByDate df).filter (fun x => decide (x.date ≤ asOf - 7)) = rest ++ [o] →
        (calculate_fred_performance asOf df).week = some (a.value - o.value)) ∧
    ((sortByDate df).filter (fun x => decide (x.date ≤ asOf - 30)) = [] →
        (calculate_fred_performance asOf df).month = none) ∧
    (∀ (o a : Obs) (rest rest2 : List Obs), sortByDate df = rest2 ++ [a] →
        (sortByDate df).filter (fun x => decide (x.date ≤ asOf - 30)) = rest ++ [o] →
        (calculate_fred_performance asOf df).month = some (a.value - o.value)) := by
  refine ⟨?_, ?_, ?_, ?_, ?_, ?_, ?_, ?_⟩
  · intro hf
    rcases List.eq_nil_or_concat' (sortByDate df) with h | ⟨L, c, h⟩
    · rw [calc_yf_of_nil asOf df h]
    · rw [calc_yf_of_last asOf df c L h]
      show lookbackChangePct (L ++ [c]) (asOf - 7) c.value = none
      rw [h] at hf
      exact lookbackChangePct_of_filter_nil _ _ _ hf
  · intro o a rest rest2 hs hf ho
    rw [calc_yf_of_last asOf df a rest2 hs]
    show lookbackChangePct (rest2 ++ [a]) (asOf - 7) a.value = _
    rw [hs] at hf
    rw [lookbackChangePct_of_filter_concat _ _ _ rest o hf]
    unfold pctChangeFrom
    rw [if_pos ho]
  · intro hf
    rcases List.eq_nil_or_concat' (sortByDate df) with h | ⟨L, c, h⟩
    · rw [calc_yf_of_nil asOf df h]
    · rw [calc_yf_of_last asOf df c L h]
      show lookbackChangePct (L ++ [c]) (asOf - 30) c.value = none
      rw [h] at hf
      exact lookbackChangePct_of_filter_nil _ _ _ hf
  · intro o a rest rest2 hs hf ho
    rw [calc_yf_of_last asOf df a rest2 hs]
    show lookbackChangePct (rest2 ++ [a]) (asOf - 30) a.value = _
    rw [hs] at hf
    rw [lookbackChangePct_of_filter_concat _ _ _ rest o hf]
    unfold pctChangeFrom
    rw [if_pos ho]
  · intro hf
    rcases List.eq_nil_or_concat' (sortByDate df) with h | ⟨L, c, h⟩
    · rw [calc_fred_of_nil asOf df h]
    · rw [calc_fred_of_last asOf df c L h]
      show lookbackChangeDiff (L ++ [c]) (asOf - 7) c.value = none
      rw [h] at hf
      exact lookbackChangeDiff_of_filter_nil _ _ _ hf
  · intro o a rest rest2 hs hf
    rw [calc_fred_of_last asOf df a rest2 hs]
    show lookbackChangeDiff (rest2 ++ [a]) (asOf - 7) a.value = _
    rw [hs] at hf
    exact lookbackChangeDiff_of_filter_concat _ _ _ rest o hf
  · intro hf
    rcases List.eq_nil_or_concat' (sortByDate df) with h | ⟨L, c, h⟩
    · rw [calc_fred_of_nil asOf df h]
    · rw [calc_fred_of_last asOf df c L h]
      show lookbackChangeDiff (L ++ [c]) (asOf - 30) c.value = none
      rw [h] at hf
      exact lookbackChangeDiff_of_filter_nil _ _ _ hf
  · intro o a rest rest2 hs hf
    rw [calc_fred_of_last asOf df a rest2 hs]
    show lookbackChangeDiff (rest2 ++ [a]) (asOf - 30) a.value = _
    rw [hs] at hf
    exact lookbackChangeDiff_of_filter_concat _ _ _ rest o hf

/-- Witness for C2: series `[(0, 10), (8, 11)]` at asOf 10 — the week slice
is `[(0, 10)]`, so Week = `(11 - 10) / 10 * 100`; the month slice (cutoff
`-20`) is empty, so Month is `"N/A"`; and for the raw-difference variant the
week change is `11 - 10`. -/
theorem C2_week_month_lookback_witness :
    (calculate_yfinance_performance 10 [⟨0, 10⟩, ⟨8, 11⟩]).week =
        some ((11 - 10) / 10 * 100) ∧
    (calculate_yfinance_performance 10 [⟨0, 10⟩, ⟨8, 11⟩]).month = none ∧
    (calculate_fred_performance 10 [⟨0, 10⟩, ⟨8, 11⟩]).week = some (11 - 10) :=
  ⟨(C2_week_month_lookback 10 [⟨0, 10⟩, ⟨8, 11⟩]).2.1 ⟨0, 10⟩ ⟨8, 11⟩ [] [⟨0, 10⟩]
      (by decide) (by decide) (by norm_num),
   (C2_week_month_lookback 10 [⟨0, 10⟩, ⟨8, 11⟩]).2.2.1 (by decide),
   (C2_week_month_lookback 10 [⟨0, 10⟩, ⟨8, 11⟩]).2.2.2.2.2.1 ⟨0, 10⟩ ⟨8, 11⟩ [] [⟨0, 10⟩]
      (by decide) (by decide)⟩

/-- C7: in the percentage variant, each change field is `"N/A"` — not an
infinity, NaN or exception — whenever the corresponding reference
observation's value is exactly 0: the `if prev != 0` guards make the
division unreachable (in the embedding the field is `none`). -/
theorem C7_zero_denominator (asOf : ℤ) (df : List Obs) :
    (∀ (a b : Obs) (rest : List Obs), sortByDate df = rest ++ [b, a] → b.value = 0 →
        (calculate_yfinance_performance asOf df).day = none) ∧
    (∀ (o : Obs) (rest : List Obs),
        (sortByDate df).filter (fun x => decide (x.date ≤ asOf - 7)) = rest ++ [o] →
        o.value = 0 → (calculate_yfinance_performance asOf df).week = none) ∧
    (∀ (o : Obs) (rest : List Obs),
        (sortByDate df).filter (fun x => decide (x.date ≤ asOf - 30)) = rest ++ [o] →
        o.value = 0 → (calculate_yfinance_performance asOf df).month = none) := by
  refine ⟨?_, ?_, ?_⟩
  · intro a b rest hs hb
    have hs' : sortByDate df = (rest ++ [b]) ++ [a] := by rw [hs, append_pair]
    rw [calc_yf_of_last asOf df a (rest ++ [b]) hs']
    show dayChangePct ((rest ++ [b]) ++ [a]) a.value = none
    rw [← append_pair, dayChangePct_pair]
    unfold pctChangeFrom
    rw [hb]
    simp
  · intro o rest hf ho
    obtain ⟨rest2, a, hs⟩ :=
      exists_concat_of_filter_concat (sortByDate df) _ rest o hf
    rw [calc_yf_of_last asOf df a rest2 hs]
    show lookbackChangePct (rest2 ++ [a]) (asOf - 7) a.value = none
    rw [hs] at hf
    rw [lookbackChangePct_of_filter_concat _ _ _ rest o hf]
    unfold pctChangeFrom
    rw [ho]
    simp
  · intro o rest hf ho
    obtain ⟨rest2, a, hs⟩ :=
      exists_concat_of_filter_concat (sortByDate df) _ rest o hf
    rw [calc_yf_of_last asOf df a rest2 hs]
    show lookbackChangePct (rest2 ++ [a]) (asOf - 30) a.value = none
    rw [hs] at hf
    rw [lookbackChangePct_of_filter_concat _ _ _ rest o hf]
    unfold pctChangeFrom
    rw [ho]
    simp

/-- Witness for C7: for `[(0, 0), (1, 5)]` the previous close is 0, so the
Day field is `"N/A"`; for `[(0, 0), (8, 5)]` at asOf 10 the week reference
`(0, 0)` has value 0, so Week is `"N/A"` too. -/
theorem C7_zero_denominator_witness :
    (calculate_yfinance_performance 1 [⟨0, 0⟩, ⟨1, 5⟩]).day = none ∧
    (calculate_yfinance_performance 10 [⟨0, 0⟩, ⟨8, 5⟩]).week = none :=
  ⟨(C7_zero_denominator 1 [⟨0, 0⟩, ⟨1, 5⟩]).1 ⟨1, 5⟩ ⟨0, 0⟩ [] (by decide) (by norm_num),
   (C7_zero_denominator 10 [⟨0, 0⟩, ⟨8, 5⟩]).2.1 ⟨0, 0⟩ [] (by decide) (by norm_num)⟩

/-- C9 (implicit): for a non-empty raw-difference (FRED) series whose most
recent observation is dated at or before `asOf - 7`, the `<= cutoff` slice
contains the latest observation itself, which is therefore selected as its
own lookback reference: the Week change is the numeric value 0, not `"N/A"`;
likewise for Month with `asOf - 30`. -/
theorem C9_stale_fred_zero (asOf : ℤ) (df : List Obs) :
    (∀ (a : Obs) (rest : List Obs), sortByDate df = rest ++ [a] → a.date ≤ asOf - 7 →
        (calculate_fred_performance asOf df).week = some 0) ∧
    (∀ (a : Obs) (rest : List Obs), sortByDate df = rest ++ [a] → a.date ≤ asOf - 30 →
        (calculate_fred_performance asOf df).month = some 0) := by
  constructor
  · intro a rest hs ha
    have hsorted : List.Sorted dateLE (rest ++ [a]) := by
      rw [← hs]
      exact List.sorted_insertionSort dateLE df
    rw [calc_fred_of_last asOf df a rest hs]
    show lookbackChangeDiff (rest ++ [a]) (asOf - 7) a.value = some 0
    rw [lookbackChangeDiff_of_filter_concat _ _ _ rest a
      (filter_cutoff_eq_self rest a (asOf - 7) hsorted ha)]
    rw [sub_self]
  · intro a rest hs ha
    have hsorted : List.Sorted dateLE (rest ++ [a]) := by
      rw [← hs]
      exact List.sorted_insertionSort dateLE df
    rw [calc_fred_of_last asOf df a rest hs]
    show lookbackChangeDiff (rest ++ [a]) (asOf - 30) a.value = some 0
    rw [lookbackChangeDiff_of_filter_concat _ _ _ rest a
      (filter_cutoff_eq_self rest a (asOf - 30) hsorted ha)]
    rw [sub_self]

/-- Witness for C9: the single-observation series `[(0, 4)]` at asOf 40:
both Week and Month are the numeric 0 (Day is `"N/A"` there, but the claim
is about Week/Month). -/
theorem C9_stale_fred_zero_witness :
    (calculate_fred_performance 40 [⟨0, 4⟩]).week = some 0 ∧
    (calculate_fred_performance 40 [⟨0, 4⟩]).month = some 0 :=
  ⟨(C9_stale_fred_zero 40 [⟨0, 4⟩]).1 ⟨0, 4⟩ [] (by decide) (by decide),
   (C9_stale_fred_zero 40 [⟨0, 4⟩]).2 ⟨0, 4⟩ [] (by decide) (by decide)⟩

/-! ### Claims C8 and C6: variant separation and table assembly -/

/-- The asset name of a fixed-income row is always the input name,
whichever data source (or none) it is bound to. -/
lemma build_fixed_income_row_asset (asOf : ℤ) (fredMap yfMap : List (String × String))
    (fetchFred fetchYf : String → List Obs) (name : String) :
    (build_fixed_income_row asOf fredMap yfMap fetchFred fetchYf name).asset = name := by
  unfold build_fixed_income_row
  cases lookupName fredMap name with
  | some sid =>
    by_cases h : fetchFred sid = [] <;> simp [h]
  | none =>
    cases lookupName yfMap name with
    | some tckr => by_cases h : fetchYf tckr = [] <;> simp [h]
    | none => rfl

/-- C8: the raw-difference (FRED) calculator reports every change field as
the plain level difference `latest - lookback` — no division, no `* 100`,
not even a zero guard — while the percentage calculator uses
`(latest - previous) / previous * 100`; and the fixed-income loop dispatches
each asset to exactly one of the two calculators (FRED names to the
raw-difference one, yfinance names to the percentage one), so the two scales
are never mixed within a field. -/
theorem C8_raw_difference_variant (asOf : ℤ) (df : List Obs) :
    (∀ (a b : Obs) (rest : List Obs), sortByDate df = rest ++ [b, a] →
        (calculate_fred_performance asOf df).day = some (a.value - b.value)) ∧
    (∀ (o a : Obs) (rest rest2 : List Obs), sortByDate df = rest2 ++ [a] →
        (sortByDate df).filter (fun x => decide (x.date ≤ asOf - 7)) = rest ++ [o] →
        (calculate_fred_performance asOf df).week = some (a.value - o.value)) ∧
    (∀ (o a : Obs) (rest rest2 : List Obs), sortByDate df = rest2 ++ [a] →
        (sortByDate df).filter (fun x => decide (x.date ≤ asOf - 30)) = rest ++ [o] →
        (calculate_fred_performance asOf df).month = some (a.value - o.value)) ∧
    (∀ (a b : Obs) (rest : List Obs), sortByDate df = rest ++ [b, a] → b.value ≠ 0 →
        (calculate_yfinance_performance asOf df).day =
          some ((a.value - b.value) / b.value * 100)) ∧
    (∀ (fredMap yfMap : List (String × String)) (fetchFred fetchYf : String → List Obs)
        (name sid : String), lookupName fredMap name = some sid → fetchFred sid ≠ [] →
        build_fixed_income_row asOf fredMap yfMap fetchFred fetchYf name =
          ⟨name, ((fetchFred sid).getLast?).map Obs.value,
           (calculate_fred_performance asOf (fetchFred sid)).day,
           (calculate_fred_performance asOf (fetchFred sid)).week,
           (calculate_fred_performance asOf (fetchFred sid)).month⟩) ∧
    (∀ (fredMap yfMap : List (String × String)) (fetchFred fetchYf : String → List Obs)
        (name tckr : String), lookupName fredMap name = none →
        lookupName yfMap name = some tckr → fetchYf tckr ≠ [] →
        build_fixed_income_row asOf fredMap yfMap fetchFred fetchYf name =
          ⟨name, ((fetchYf tckr).getLast?).map Obs.value,
           (calculate_yfinance_performance asOf (fetchYf tckr)).day,
           (calculate_yfinance_performance asOf (fetchYf tckr)).week,
           (calculate_yfinance_performance asOf (fetchYf tckr)).month⟩) := by
  refine ⟨?_, ?_, ?_, ?_, ?_, ?_⟩
  · intro a b rest hs
    have hs' : sortByDate df = (rest ++ [b]) ++ [a] := by rw [hs, append_pair]
    rw [calc_fred_of_last asOf df a (rest ++ [b]) hs']
    show dayChangeDiff ((rest ++ [b]) ++ [a]) a.value = _
    rw [← append_pair, dayChangeDiff_pair]
  · intro o a rest rest2 hs hf
    rw [calc_fred_of_last asOf df a rest2 hs]
    show lookbackChangeDiff (rest2 ++ [a]) (asOf - 7) a.value = _
    rw [hs] at hf
    exact lookbackChangeDiff_of_filter_concat _ _ _ rest o hf
  · intro o a rest rest2 hs hf
    rw [calc_fred_of_last asOf df a rest2 hs]
    show lookbackChangeDiff (rest2 ++ [a]) (asOf - 30) a.value = _
    rw [hs] at hf
    exact lookbackChangeDiff_of_filter_concat _ _ _ rest o hf
  · intro a b rest hs hb
    exact (C1_day_change asOf df).1 a b rest hs hb
  · intro fredMap yfMap fetchFred fetchYf name sid hlook hne
    unfold build_fixed_income_row
    rw [hlook]
    simp only [if_neg hne]
  · intro fredMap yfMap fetchFred fetchYf name tckr hlook1 hlook2 hne
    unfold build_fixed_income_row
    rw [hlook1, hlook2]
    simp only [if_neg hne]

/-- Witness for C8: FRED series `[(0, 2), (1, 5)]` at asOf 1 gives Day
`5 - 2 = 3` (a plain level difference, not a percentage), and the
fixed-income row for a FRED-bound name carries exactly the raw-difference
calculator's fields. -/
theorem C8_raw_difference_variant_witness :
    (calculate_fred_performance 1 [⟨0, 2⟩, ⟨1, 5⟩]).day = some 3 ∧
    (build_fixed_income_row 1 [("F", "D")] []
        (fun _ => [⟨0, 2⟩, ⟨1, 5⟩]) (fun _ => []) "F").day = some 3 := by
  have h1 := (C8_raw_difference_variant 1 [⟨0, 2⟩, ⟨1, 5⟩]).1 ⟨1, 5⟩ ⟨0, 2⟩ [] (by decide)
  have h2 := (C8_raw_difference_variant 1 [⟨0, 2⟩, ⟨1, 5⟩]).2.2.2.2.1
    [("F", "D")] [] (fun _ => [⟨0, 2⟩, ⟨1, 5⟩]) (fun _ => []) "F" "D"
    (by decide) (by decide)
  have hday : (calculate_fred_performance 1 [⟨0, 2⟩, ⟨1, 5⟩]).day = some 3 :=
    h1.trans (by norm_num)
  exact ⟨hday, by rw [h2]; exact hday⟩

/-- C6: each table-assembly loop produces exactly one row per input asset,
in the caller-specified order (the row list is a `map` over the asset
list), even when every fetch fails; a failed/empty fetch degrades only that
asset's row — current value and all three changes become `"N/A"` — and never
drops the asset (each row is a function of its own asset alone, so other
rows are unaffected). -/
theorem C6_aggregator_rows (asOf : ℤ) :
    (∀ (tickers : List (String × String)) (fetch : String → List Obs),
        (build_equity_rows asOf tickers fetch).length = tickers.length ∧
        (build_equity_rows asOf tickers fetch).map AssetRow.asset =
          tickers.map Prod.fst) ∧
    (∀ (fetch : String → List Obs) (nt : String × String), fetch nt.2 = [] →
        build_equity_row asOf fetch nt = ⟨nt.1, nt.2, none, none, none, none⟩) ∧
    (∀ (fredMap yfMap : List (String × String)) (fetchFred fetchYf : String → List Obs)
        (order : List String),
        (build_fixed_income_rows asOf fredMap yfMap fetchFred fetchYf order).length =
          order.length ∧
        (build_fixed_income_rows asOf fredMap yfMap fetchFred fetchYf order).map
          FIRow.asset = order) ∧
    (∀ (fredMap yfMap : List (String × String)) (fetchFred fetchYf : String → List Obs)
        (name : String), (∀ sid, fetchFred sid = []) → (∀ tckr, fetchYf tckr = []) →
        build_fixed_income_row asOf fredMap yfMap fetchFred fetchYf name =
          ⟨name, none, none, none, none⟩) := by
  refine ⟨?_, ?_, ?_, ?_⟩
  · intro tickers fetch
    constructor
    · simp [build_equity_rows]
    · rw [build_equity_rows, List.map_map]
      have : (AssetRow.asset ∘ build_equity_row asOf fetch) = Prod.fst :=
        funext (fun nt => rfl)
      rw [this]
  · intro fetch nt h
    unfold build_equity_row
    rw [h]
    rfl
  · intro fredMap yfMap fetchFred fetchYf order
    constructor
    · simp [build_fixed_income_rows]
    · rw [build_fixed_income_rows, List.map_map]
      have : (FIRow.asset ∘ build_fixed_income_row asOf fredMap yfMap fetchFred fetchYf) =
          id :=
        funext (fun name =>
          build_fixed_income_row_asset asOf fredMap yfMap fetchFred fetchYf name)
      rw [this, List.map_id]
  · intro fredMap yfMap fetchFred fetchYf name hF hY
    unfold build_fixed_income_row
    cases h1 : lookupName fredMap name with
    | some sid =>
      simp [hF sid]
    | none =>
      cases h2 : lookupName yfMap name with
      | some tckr => simp [hY tckr]
      | none => rfl

/-- Witness for C6: with a fetch that always fails, the row is still built,
keeps its identity fields and has every numeric field `"N/A"`; the same for
a FRED-bound fixed-income name. -/
theorem C6_aggregator_rows_witness :
    build_equity_row 0 (fun _ => []) ("S&P 500", "SPY") =
      ⟨"S&P 500", "SPY", none, none, none, none⟩ ∧
    build_fixed_income_row 0 [("F", "D")] [("M", "T")] (fun _ => []) (fun _ => []) "F" =
      ⟨"F", none, none, none, none⟩ :=
  ⟨(C6_aggregator_rows 0).2.1 (fun _ => []) ("S&P 500", "SPY") rfl,
   (C6_aggregator_rows 0).2.2.2 [("F", "D")] [("M", "T")] (fun _ => []) (fun _ => []) "F"
     (fun _ => rfl) (fun _ => rfl)⟩

/-! ### Claim C3: the heatmap bucket -/

lemma code_scale_pos_some (v m : ℚ) :
    code_scale_pos v (some m) = if m ≤ 0 then 1 else min (v / m) 1 := rfl

lemma code_scale_neg_some (v m : ℚ) :
    code_scale_neg v (some m) = if 0 ≤ m then 1 else min (|v| / |m|) 1 := rfl

lemma code_scale_pos_nonneg (v : ℚ) (mx : Option ℚ) (hv : 0 < v) :
    0 ≤ code_scale_pos v mx := by
  cases mx with
  | none => norm_num [code_scale_pos]
  | some m =>
    rw [code_scale_pos_some]
    by_cases hm : m ≤ 0
    · rw [if_pos hm]
      norm_num
    · rw [if_neg hm]
      exact le_min (le_of_lt (div_pos hv (not_le.mp hm))) zero_le_one

lemma code_scale_pos_le_one (v : ℚ) (mx : Option ℚ) : code_scale_pos v mx ≤ 1 := by
  cases mx with
  | none => norm_num [code_scale_pos]
  | some m =>
    rw [code_scale_pos_some]
    by_cases hm : m ≤ 0
    · rw [if_pos hm]
    · rw [if_neg hm]
      exact min_le_right _ _

lemma code_scale_neg_nonneg (v : ℚ) (mn : Option ℚ) (_hv : v < 0) :
    0 ≤ code_scale_neg v mn := by
  cases mn with
  | none => norm_num [code_scale_neg]
  | some m =>
    rw [code_scale_neg_some]
    by_cases hm : (0 : ℚ) ≤ m
    · rw [if_pos hm]
      norm_num
    · rw [if_neg hm]
      exact le_min (div_nonneg (abs_nonneg v) (abs_nonneg m)) zero_le_one

lemma code_scale_neg_le_one (v : ℚ) (mn : Option ℚ) : code_scale_neg v mn ≤ 1 := by
  cases mn with
  | none => norm_num [code_scale_neg]
  | some m =>
    rw [code_scale_neg_some]
    by_cases hm : (0 : ℚ) ≤ m
    · rw [if_pos hm]
    · rw [if_neg hm]
      exact min_le_right _ _

/-- For a positive value the source's scale coincides with the spec's
reference scale (the spec's lower clamp at 0 is vacuous because
`v / m > 0`). -/
lemma code_scale_pos_eq_spec (v : ℚ) (mx : Option ℚ) (hv : 0 < v) :
    code_scale_pos v mx = spec_scale_pos v mx := by
  cases mx with
  | none => rfl
  | some m =>
    rw [code_scale_pos_some]
    show _ = if 0 < m then max 0 (min (v / m) 1) else 1
    by_cases hm : 0 < m
    · rw [if_neg (not_le.mpr hm), if_pos hm]
      exact (max_eq_right (le_min (le_of_lt (div_pos hv hm)) zero_le_one)).symm
    · rw [if_pos (not_lt.mp hm), if_neg hm]

/-- For a negative value the source's scale coincides with the spec's
reference scale. -/
lemma code_scale_neg_eq_spec (v : ℚ) (mn : Option ℚ) (_hv : v < 0) :
    code_scale_neg v mn = spec_scale_neg v mn := by
  cases mn with
  | none => rfl
  | some m =>
    rw [code_scale_neg_some]
    show _ = if m < 0 then max 0 (min (|v| / |m|) 1) else 1
    by_cases hm : m < 0
    · rw [if_neg (not_le.mpr hm), if_pos hm]
      exact (max_eq_right (le_min (div_nonneg (abs_nonneg v) (abs_nonneg m)) zero_le_one)).symm
    · rw [if_pos (not_lt.mp hm), if_neg hm]

lemma nat_sqrt_sixteen : Nat.sqrt 16 = 4 := by
  rw [show (16 : ℕ) = 4 * 4 from rfl, Nat.sqrt_eq]

lemma sqrtIndex_le_four (s : ℚ) (hs1 : s ≤ 1) : sqrtIndex s ≤ 4 := by
  unfold sqrtIndex
  have h16 : (16 : ℚ) * s ≤ 16 := by nlinarith
  have hfloor : ⌊(16 : ℚ) * s⌋ ≤ 16 := by
    have h := Int.floor_le_floor h16
    simpa using h
  have hm : Int.toNat ⌊(16 : ℚ) * s⌋ ≤ 16 := by omega
  calc Nat.sqrt (Int.toNat ⌊(16 : ℚ) * s⌋) ≤ Nat.sqrt 16 := Nat.sqrt_le_sqrt hm
    _ = 4 := nat_sqrt_sixteen

/-- The floor characterisation of the bucket index: for a scale in `[0, 1]`,
the index computed by the source (`int(scale ** 0.5 * 4)` clamped to
`[0, 4]`) is the unique `i ≤ 4` with `i² ≤ 16·scale` and (when `i < 4`)
`16·scale < (i+1)²` — that is, `⌊√scale · 4⌋` clamped, as the spec words
it. -/
lemma sqrtIndex_char (s : ℚ) (hs0 : 0 ≤ s) (hs1 : s ≤ 1) (i : ℕ) (hi4 : i ≤ 4)
    (hlo : ((i : ℚ)) ^ 2 ≤ 16 * s) (hhi : i < 4 → 16 * s < ((i : ℚ) + 1) ^ 2) :
    min (sqrtIndex s) 4 = i := by
  rw [min_eq_left (sqrtIndex_le_four s hs1)]
  unfold sqrtIndex
  have hfl0 : (0 : ℤ) ≤ ⌊(16 : ℚ) * s⌋ := by
    rw [Int.le_floor]
    push_cast
    nlinarith
  have h1 : ((i ^ 2 : ℕ) : ℤ) ≤ ⌊(16 : ℚ) * s⌋ := by
    rw [Int.le_floor]
    push_cast
    exact hlo
  have h2 : i ^ 2 ≤ Int.toNat ⌊(16 : ℚ) * s⌋ := by omega
  have hge : i ≤ Nat.sqrt (Int.toNat ⌊(16 : ℚ) * s⌋) := Nat.le_sqrt'.mpr h2
  rcases Nat.lt_or_ge i 4 with h4 | h4
  · have h3 : 16 * s < ((i : ℚ) + 1) ^ 2 := hhi h4
    have h6 : 16 * s < (((i + 1) ^ 2 : ℕ) : ℚ) := by
      push_cast
      push_cast at h3
      linarith
    have h7 : ⌊(16 : ℚ) * s⌋ < (((i + 1) ^ 2 : ℕ) : ℤ) := by
      rw [Int.floor_lt]
      exact_mod_cast h6
    have h8 : Int.toNat ⌊(16 : ℚ) * s⌋ < (i + 1) ^ 2 := by omega
    have hlt : Nat.sqrt (Int.toNat ⌊(16 : ℚ) * s⌋) < i + 1 := Nat.sqrt_lt'.mpr h8
    omega
  · have hi : i = 4 := le_antisymm hi4 h4
    subst hi
    have h16 : (16 : ℚ) ≤ 16 * s := by
      push_cast at hlo
      nlinarith
    have hseq : s = 1 := le_antisymm hs1 (by linarith)
    subst hseq
    have hfl : ⌊(16 : ℚ) * 1⌋ = 16 := by norm_num
    rw [hfl]
    rw [show Int.toNat 16 = 16 from rfl]
    exact nat_sqrt_sixteen

/-- C3: `get_heatmap_class` equals the spec's reference bucket definition:
non-numeric and exactly-zero inputs map to the two neutral classes; a
positive value selects the green bucket whose 0-based index `i` is
`⌊√scale · 4⌋` clamped to `[0, 4]` for the spec's scale (`value/columnMax`
clamped to `[0, 1]` when `columnMax > 0`, else the degenerate `1.0`) — the
floor is phrased by its defining inequalities `i² ≤ 16·scale < (i+1)²`; a
negative value symmetrically selects the red bucket from
`|value|/|columnMin|`; and the function is pure (equal arguments give equal
results). -/
theorem C3_heatmap_bucket (value : Option ℚ) (mn mx : Option ℚ) :
    (value = none → get_heatmap_class value mn mx = "bg-gray-200 text-gray-800") ∧
    (value = some 0 → get_heatmap_class value mn mx = "bg-gray-300 text-gray-800") ∧
    (∀ v : ℚ, value = some v → 0 < v → ∀ i : ℕ, i ≤ 4 →
        ((i : ℚ)) ^ 2 ≤ 16 * spec_scale_pos v mx →
        (i < 4 → 16 * spec_scale_pos v mx < ((i : ℚ) + 1) ^ 2) →
        get_heatmap_class value mn mx = greenCell i) ∧
    (∀ v : ℚ, value = some v → v < 0 → ∀ i : ℕ, i ≤ 4 →
        ((i : ℚ)) ^ 2 ≤ 16 * spec_scale_neg v mn →
        (i < 4 → 16 * spec_scale_neg v mn < ((i : ℚ) + 1) ^ 2) →
        get_heatmap_class value mn mx = redCell i) ∧
    (∀ (value2 mn2 mx2 : Option ℚ), value = value2 → mn = mn2 → mx = mx2 →
        get_heatmap_class value mn mx = get_heatmap_class value2 mn2 mx2) := by
  refine ⟨?_, ?_, ?_, ?_, ?_⟩
  · intro h
    subst h
    rfl
  · intro h
    subst h
    rfl
  · intro v hval hv i hi4 hlo hhi
    subst hval
    show (if v = 0 then "bg-gray-300 text-gray-800"
      else if 0 < v then greenCell (min (sqrtIndex (code_scale_pos v mx)) 4)
      else redCell (min (sqrtIndex (code_scale_neg v mn)) 4)) = greenCell i
    rw [if_neg (ne_of_gt hv), if_pos hv]
    rw [code_scale_pos_eq_spec v mx hv] at *
    rw [sqrtIndex_char (spec_scale_pos v mx)
      ((code_scale_pos_eq_spec v mx hv) ▸ code_scale_pos_nonneg v mx hv)
      ((code_scale_pos_eq_spec v mx hv) ▸ code_scale_pos_le_one v mx)
      i hi4 hlo hhi]
  · intro v hval hv i hi4 hlo hhi
    subst hval
    show (if v = 0 then "bg-gray-300 text-gray-800"
      else if 0 < v then greenCell (min (sqrtIndex (code_scale_pos v mx)) 4)
      else redCell (min (sqrtIndex (code_scale_neg v mn)) 4)) = redCell i
    rw [if_neg (ne_of_lt hv), if_neg (not_lt.mpr (le_of_lt hv))]
    rw [code_scale_neg_eq_spec v mn hv] at *
    rw [sqrtIndex_char (spec_scale_neg v mn)
      ((code_scale_neg_eq_spec v mn hv) ▸ code_scale_neg_nonneg v mn hv)
      ((code_scale_neg_eq_spec v mn hv) ▸ code_scale_neg_le_one v mn)
      i hi4 hlo hhi]
  · intro value2 mn2 mx2 h1 h2 h3
    subst h1
    subst h2
    subst h3
    rfl

/-- Witness for C3 at the spec's worked example: column range `[-5, 10]`;
value 3 gives `scale = 3/10`, `16·scale = 4.8 ∈ [2², 3²)`, so green bucket
index 2 (green₃); value -2 gives `scale = 2/5`, `16·scale = 6.4 ∈ [2², 3²)`,
so red bucket index 2 (red₃). -/
theorem C3_heatmap_bucket_witness :
    get_heatmap_class (some 3) (some (-5)) (some 10) = greenCell 2 ∧
    get_heatmap_class (some (-2)) (some (-5)) (some 10) = redCell 2 :=
  ⟨(C3_heatmap_bucket (some 3) (some (-5)) (some 10)).2.2.1 3 rfl (by norm_num) 2
      (by norm_num) (by norm_num [spec_scale_pos]) (by norm_num [spec_scale_pos]),
   (C3_heatmap_bucket (some (-2)) (some (-5)) (some 10)).2.2.2.1 (-2) rfl (by norm_num) 2
      (by norm_num) (by norm_num [spec_scale_neg]) (by norm_num [spec_scale_neg])⟩

/-! ### Claims C4 and C10: the ranker -/

lemma sortRowsAsc_length (l : List Row) : (sortRowsAsc l).length = l.length :=
  (List.perm_insertionSort rowLE l).length_eq

/-- The keys of the eligible rows are exactly the numeric cells of the
table. -/
lemma map_rowKey_filter (df : List Row) :
    (df.filter (fun r => r.cell.isSome)).map rowKey = df.filterMap Row.cell := by
  induction df with
  | nil => rfl
  | cons x xs ih =>
    cases hx : x.cell with
    | none => simp [List.filter_cons, List.filterMap_cons, hx, ih]
    | some q => simp [List.filter_cons, List.filterMap_cons, hx, rowKey, ih]

/-- Sorting rows descending by key and then reading the keys equals sorting
the keys descending (the row sort compares only keys). -/
lemma map_rowKey_sortRowsDesc (l : List Row) :
    (sortRowsDesc l).map rowKey = sortValsDesc (l.map rowKey) :=
  List.map_insertionSort rowGE valGE rowKey l (fun _ _ _ _ => Iff.rfl)

lemma map_rowKey_sortRowsAsc (l : List Row) :
    (sortRowsAsc l).map rowKey = sortValsAsc (l.map rowKey) :=
  List.map_insertionSort rowLE valLE rowKey l (fun _ _ _ _ => Iff.rfl)

/-- Ascending-sorting a descending-sorted value list reverses it. -/
lemma sortValsAsc_of_sorted_desc (l : List ℚ) (h : List.Sorted valGE l) :
    sortValsAsc l = l.reverse := by
  apply List.eq_of_perm_of_sorted (r := valLE)
  · exact (List.perm_insertionSort valLE l).trans (List.reverse_perm l).symm
  · exact List.sorted_insertionSort valLE l
  · exact List.pairwise_reverse.mpr h

/-- The ascending sort of a value list is the reverse of its descending
sort. -/
lemma sortValsAsc_eq_reverse (l : List ℚ) :
    sortValsAsc l = (sortValsDesc l).reverse := by
  have h1 : sortValsAsc (sortValsDesc l) = (sortValsDesc l).reverse :=
    sortValsAsc_of_sorted_desc _ (List.sorted_insertionSort valGE l)
  have h2 : sortValsAsc l = sortValsAsc (sortValsDesc l) := by
    apply List.eq_of_perm_of_sorted (r := valLE)
    · exact (List.perm_insertionSort valLE l).trans
        ((List.perm_insertionSort valGE l).symm.trans
          (List.perm_insertionSort valLE (sortValsDesc l)).symm)
    · exact List.sorted_insertionSort valLE l
    · exact List.sorted_insertionSort valLE (sortValsDesc l)
  rw [h2, h1]

/-- The last `k` of the descending sort, re-sorted ascending, are the first
`k` of the ascending sort: the `tail(k)`-then-ascending step of the source
yields the `k` smallest values in ascending order. -/
lemma bottom_vals_eq (vals : List ℚ) (k : ℕ) :
    sortValsAsc ((sortValsDesc vals).drop ((sortValsDesc vals).length - k)) =
      (sortValsAsc vals).take k := by
  rw [sortValsAsc_eq_reverse vals, List.take_reverse]
  exact sortValsAsc_of_sorted_desc _
    (List.Pairwise.sublist (List.drop_sublist _ _) (List.sorted_insertionSort valGE vals))

/-- C4: `get_top_bottom_performers` returns as `top` the `k` largest numeric
values of the column in descending order and as `bottom` the `k` smallest in
ascending order (stated as: the key sequences equal `take k` of the
descending / ascending sort of all numeric cells); rows whose entry is
non-numeric are excluded from both rather than treated as zero or raising;
each result has at most `k` rows; and when at most `k` eligible rows exist,
both results contain all of them. -/
theorem C4_top_bottom (df : List Row) (k : ℕ) :
    ((get_top_bottom_performers df k).1).map rowKey =
        (sortValsDesc (df.filterMap Row.cell)).take k ∧
    ((get_top_bottom_performers df k).2).map rowKey =
        (sortValsAsc (df.filterMap Row.cell)).take k ∧
    (get_top_bottom_performers df k).1.length ≤ k ∧
    (get_top_bottom_performers df k).2.length ≤ k ∧
    (∀ r ∈ (get_top_bottom_performers df k).1, r ∈ df ∧ r.cell.isSome = true) ∧
    (∀ r ∈ (get_top_bottom_performers df k).2, r ∈ df ∧ r.cell.isSome = true) ∧
    ((df.filter (fun r => r.cell.isSome)).length ≤ k →
        (get_top_bottom_performers df k).1.length =
          (df.filter (fun r => r.cell.isSome)).length ∧
        (get_top_bottom_performers df k).2.length =
          (df.filter (fun r => r.cell.isSome)).length) := by
  have hmapD : (sortRowsDesc (df.filter (fun r => r.cell.isSome))).map rowKey
      = sortValsDesc (df.filterMap Row.cell) := by
    rw [map_rowKey_sortRowsDesc, map_rowKey_filter]
  have hSRlen : (sortRowsDesc (df.filter (fun r => r.cell.isSome))).length
      = (df.filter (fun r => r.cell.isSome)).length :=
    (List.perm_insertionSort rowGE _).length_eq
  refine ⟨?_, ?_, ?_, ?_, ?_, ?_, ?_⟩
  · show ((sortRowsDesc (df.filter (fun r => r.cell.isSome))).take k).map rowKey = _
    rw [List.map_take, hmapD]
  · show (sortRowsAsc ((sortRowsDesc (df.filter (fun r => r.cell.isSome))).drop
      ((sortRowsDesc (df.filter (fun r => r.cell.isSome))).length - k))).map rowKey = _
    rw [map_rowKey_sortRowsAsc, List.map_drop, hmapD]
    have hlen : (sortRowsDesc (df.filter (fun r => r.cell.isSome))).length
        = (sortValsDesc (df.filterMap Row.cell)).length := by
      rw [← hmapD, List.length_map]
    rw [hlen]
    exact bottom_vals_eq _ k
  · show ((sortRowsDesc (df.filter (fun r => r.cell.isSome))).take k).length ≤ k
    exact List.length_take_le k _
  · show (sortRowsAsc ((sortRowsDesc (df.filter (fun r => r.cell.isSome))).drop
      ((sortRowsDesc (df.filter (fun r => r.cell.isSome))).length - k))).length ≤ k
    rw [sortRowsAsc_length, List.length_drop]
    omega
  · intro r hr
    have hr1 : r ∈ sortRowsDesc (df.filter (fun r => r.cell.isSome)) :=
      (List.take_sublist k _).subset hr
    have hr2 : r ∈ df.filter (fun r => r.cell.isSome) :=
      (List.perm_insertionSort rowGE _).mem_iff.mp hr1
    simpa using List.mem_filter.mp hr2
  · intro r hr
    have hr1 : r ∈ (sortRowsDesc (df.filter (fun r => r.cell.isSome))).drop
        ((sortRowsDesc (df.filter (fun r => r.cell.isSome))).length - k) :=
      (List.perm_insertionSort rowLE _).mem_iff.mp hr
    have hr2 : r ∈ df.filter (fun r => r.cell.isSome) :=
      (List.perm_insertionSort rowGE _).mem_iff.mp ((List.drop_sublist _ _).subset hr1)
    simpa using List.mem_filter.mp hr2
  · intro hnk
    constructor
    · show ((sortRowsDesc (df.filter (fun r => r.cell.isSome))).take k).length = _
      rw [List.length_take, hSRlen]
      omega
    · show (sortRowsAsc ((sortRowsDesc (df.filter (fun r => r.cell.isSome))).drop
        ((sortRowsDesc (df.filter (fun r => r.cell.isSome))).length - k))).length = _
      rw [sortRowsAsc_length, List.length_drop, hSRlen]
      omega

/-- Witness for C4: table with cells `[5, 3, N/A, 8]` and `k = 5`: top keys
`[8, 5, 3]` (descending), bottom keys `[3, 5, 8]` (ascending), the
non-numeric row excluded, and all three eligible rows returned on both
sides. -/
theorem C4_top_bottom_witness :
    ((get_top_bottom_performers [⟨0, some 5⟩, ⟨1, some 3⟩, ⟨2, none⟩, ⟨3, some 8⟩] 5).1).map
        rowKey = [8, 5, 3] ∧
    ((get_top_bottom_performers [⟨0, some 5⟩, ⟨1, some 3⟩, ⟨2, none⟩, ⟨3, some 8⟩] 5).2).map
        rowKey = [3, 5, 8] ∧
    (get_top_bottom_performers [⟨0, some 5⟩, ⟨1, some 3⟩, ⟨2, none⟩, ⟨3, some 8⟩] 5).1.length =
      3 := by
  have h := C4_top_bottom [⟨0, some 5⟩, ⟨1, some 3⟩, ⟨2, none⟩, ⟨3, some 8⟩] 5
  refine ⟨h.1.trans (by decide), h.2.1.trans (by decide), ?_⟩
  have h7 := (h.2.2.2.2.2.2 (by decide)).1
  exact h7.trans (by decide)

/-- C10 (amended): when at most `k` rows have a numeric cell, every eligible
row appears in both the top and the bottom result; and whenever at least one
and fewer than `2k` eligible rows exist, the two results share at least one
row.  (The original claim's second clause, without the "at least one"
condition, fails for a table with no eligible rows — see the
counterexample.) -/
theorem C10_overlap (df : List Row) (k : ℕ) :
    ((df.filter (fun r => r.cell.isSome)).length ≤ k →
        ∀ r ∈ df.filter (fun r => r.cell.isSome),
          r ∈ (get_top_bottom_performers df k).1 ∧
          r ∈ (get_top_bottom_performers df k).2) ∧
    (1 ≤ (df.filter (fun r => r.cell.isSome)).length →
        (df.filter (fun r => r.cell.isSome)).length < 2 * k →
        ∃ r, r ∈ (get_top_bottom_performers df k).1 ∧
             r ∈ (get_top_bottom_performers df k).2) := by
  have hSRlen : (sortRowsDesc (df.filter (fun r => r.cell.isSome))).length
      = (df.filter (fun r => r.cell.isSome)).length :=
    (List.perm_insertionSort rowGE _).length_eq
  constructor
  · intro hnk r hr
    have hrSR : r ∈ sortRowsDesc (df.filter (fun r => r.cell.isSome)) :=
      (List.perm_insertionSort rowGE _).mem_iff.mpr hr
    constructor
    · show r ∈ (sortRowsDesc (df.filter (fun r => r.cell.isSome))).take k
      rw [List.take_of_length_le (by omega)]
      exact hrSR
    · show r ∈ sortRowsAsc ((sortRowsDesc (df.filter (fun r => r.cell.isSome))).drop
        ((sortRowsDesc (df.filter (fun r => r.cell.isSome))).length - k))
      have hm : (sortRowsDesc (df.filter (fun r => r.cell.isSome))).length - k = 0 := by
        omega
      rw [hm, List.drop_zero]
      exact (List.perm_insertionSort rowLE _).mem_iff.mpr hrSR
  · intro h1 h2
    have hmlt : (sortRowsDesc (df.filter (fun r => r.cell.isSome))).length - k <
        (sortRowsDesc (df.filter (fun r => r.cell.isSome))).length := by omega
    refine ⟨(sortRowsDesc (df.filter (fun r => r.cell.isSome))).get
      ⟨(sortRowsDesc (df.filter (fun r => r.cell.isSome))).length - k, hmlt⟩, ?_, ?_⟩
    · show _ ∈ (sortRowsDesc (df.filter (fun r => r.cell.isSome))).take k
      have hlt2 : (sortRowsDesc (df.filter (fun r => r.cell.isSome))).length - k <
          ((sortRowsDesc (df.filter (fun r => r.cell.isSome))).take k).length := by
        rw [List.length_take]
        omega
      have heq : ((sortRowsDesc (df.filter (fun r => r.cell.isSome))).take k).get
          ⟨(sortRowsDesc (df.filter (fun r => r.cell.isSome))).length - k, hlt2⟩ =
          (sortRowsDesc (df.filter (fun r => r.cell.isSome))).get
          ⟨(sortRowsDesc (df.filter (fun r => r.cell.isSome))).length - k, hmlt⟩ := by
        simp [List.get_eq_getElem]
      rw [← heq]
      exact List.get_mem _ _ _
    · show _ ∈ sortRowsAsc ((sortRowsDesc (df.filter (fun r => r.cell.isSome))).drop
        ((sortRowsDesc (df.filter (fun r => r.cell.isSome))).length - k))
      have hlt3 : 0 < ((sortRowsDesc (df.filter (fun r => r.cell.isSome))).drop
          ((sortRowsDesc (df.filter (fun r => r.cell.isSome))).length - k)).length := by
        rw [List.length_drop]
        omega
      have heq : ((sortRowsDesc (df.filter (fun r => r.cell.isSome))).drop
          ((sortRowsDesc (df.filter (fun r => r.cell.isSome))).length - k)).get ⟨0, hlt3⟩ =
          (sortRowsDesc (df.filter (fun r => r.cell.isSome))).get
          ⟨(sortRowsDesc (df.filter (fun r => r.cell.isSome))).length - k, hmlt⟩ := by
        simp [List.get_eq_getElem]
      refine (List.perm_insertionSort rowLE _).mem_iff.mpr ?_
      rw [← heq]
      exact List.get_mem _ _ _

/-- Counterexample to C10 as stated: for a table whose only row is
non-numeric and `k = 5`, there are `0 < 2·5` eligible rows, yet top and
bottom are both empty, so they share no row — the "fewer than 2k eligible
rows" clause fails without the extra "at least one eligible row"
condition. -/
theorem C10_overlap_counterexample :
    (([⟨0, none⟩] : List Row).filter (fun r => r.cell.isSome)).length < 2 * 5 ∧
    ¬ ∃ r, r ∈ (get_top_bottom_performers [⟨0, none⟩] 5).1 ∧
           r ∈ (get_top_bottom_performers [⟨0, none⟩] 5).2 := by
  constructor
  · decide
  · rintro ⟨r, hr1, -⟩
    have htop : (get_top_bottom_performers [⟨0, none⟩] 5).1 = [] := rfl
    rw [htop] at hr1
    exact absurd hr1 (List.not_mem_nil r)

/-- Witness for C10 (amended): two eligible rows, `k = 5`: the row with key
5 appears in both top and bottom, and an overlapping row exists. -/
theorem C10_overlap_witness :
    ((⟨0, some 5⟩ : Row) ∈ (get_top_bottom_performers [⟨0, some 5⟩, ⟨1, some 3⟩] 5).1 ∧
      (⟨0, some 5⟩ : Row) ∈ (get_top_bottom_performers [⟨0, some 5⟩, ⟨1, some 3⟩] 5).2) ∧
    (∃ r, r ∈ (get_top_bottom_performers [⟨0, some 5⟩, ⟨1, some 3⟩] 5).1 ∧
          r ∈ (get_top_bottom_performers [⟨0, some 5⟩, ⟨1, some 3⟩] 5).2) :=
  ⟨(C10_overlap [⟨0, some 5⟩, ⟨1, some 3⟩] 5).1 (by decide) ⟨0, some 5⟩ (by decide),
   (C10_overlap [⟨0, some 5⟩, ⟨1, some 3⟩] 5).2 (by decide) (by decide)⟩

end MarketSnapshot
